import Mathlib

/-!
Verification of the inter-agent messaging core of the Noha repository
(`test_agents.py`): the `Message` model, the per-agent bounded mailbox,
`send_message` / `receive_message` / `process_messages`, the role handlers
(`QuestionAgent._handle_message`, `AnswerAgent._handle_message`,
`BaseAgent._handle_message`), and the streamed-response assembly loop shared
by `QuestionAgent.generate_question` and `AnswerAgent.generate_answer`.

The Python code is shallowly embedded: stateful methods become functions from
an explicit `AgentState` to `Except PyError` results, exceptions become the
`PyError` error type, and the streamed HTTP backend becomes a function from
the prompt string to the raw response text.
-/

/-- Exception kinds raised by the code paths of `test_agents.py`.
`communicationError`, `ollamaError` and `queueFullError` embed the
`AgentError` subclasses defined at the top of the file; `jsonDecodeError`
embeds `json.JSONDecodeError` (raised by `json.loads`), `typeError` embeds
Python's built-in `TypeError`, and `notImplementedError` embeds the built-in
`NotImplementedError` raised by `BaseAgent._handle_message`.  The exception
message strings are elided. -/
inductive PyError where
  | communicationError
  | ollamaError
  | queueFullError
  | jsonDecodeError
  | typeError
  | notImplementedError
deriving DecidableEq, Repr

/-- True exactly for the exception kinds that are subclasses of the
repository's `AgentError` base class (the closed error taxonomy of the code:
`CommunicationError`, `OllamaError`, `QueueFullError`). -/
def PyError.isAgentError : PyError → Bool
  | .communicationError => true
  | .ollamaError => true
  | .queueFullError => true
  | _ => false

/-- Embedding of the pydantic `Message` model: `sender_id`, `receiver_id`,
`content`, `message_type` and `timestamp` are all `str` fields.  Pydantic
validates only that each field is a string; there is no non-emptiness or
format validator on any field, so construction is total on strings.  The
`timestamp` default factory `datetime.now().isoformat()` is modelled by
passing the clock reading explicitly wherever the default fires. -/
structure Message where
  senderId : String
  receiverId : String
  content : String
  messageType : String
  timestamp : String
deriving DecidableEq, Repr

/-- Embedding of the mutable state of a `BaseAgent`: its `agent_id`, the
`maxsize` given to `Queue(maxsize=max_queue_size)`, and the queue contents in
FIFO order (head = next to be dequeued).  The network configuration fields
(`model`, `base_url`, `timeout`) only feed the HTTP call, which is abstracted
into the backend function parameter of the generation operations, so they are
not part of the state. -/
structure AgentState where
  agentId : String
  maxQueueSize : Int
  messageQueue : List Message
deriving DecidableEq, Repr

/-- Embedding of `queue.Queue.full()`: `0 < maxsize <= qsize()`.  A
non-positive `maxsize` means an unbounded queue, which is never full. -/
def queueFull (a : AgentState) : Prop :=
  0 < a.maxQueueSize ∧ a.maxQueueSize ≤ (a.messageQueue.length : Int)

instance (a : AgentState) : Decidable (queueFull a) := by
  unfold queueFull; infer_instance

/-- Embedding of `BaseAgent.send_message(to_agent_id, content, message_type)`.
The method constructs a `Message` with `sender_id = self.agent_id` and the
default-factory timestamp (the `now` parameter), prints, and returns the
message.  The surrounding `try/except` re-raises any construction failure as
`CommunicationError`, but pydantic validation of `str` fields against string
arguments never fails, so the call always succeeds. -/
def sendMessage (now : String) (a : AgentState) (toAgentId content messageType : String) :
    Except PyError Message :=
  .ok ⟨a.agentId, toAgentId, content, messageType, now⟩

/-- Embedding of `BaseAgent.send_message` called without the `message_type`
argument, whose Python default is `"general"`. -/
def sendMessageDefault (now : String) (a : AgentState) (toAgentId content : String) :
    Except PyError Message :=
  sendMessage now a toAgentId content "general"

/-- Embedding of `BaseAgent.receive_message(message)`: raises
`CommunicationError` when `message.receiver_id != self.agent_id`, then raises
`QueueFullError` when the queue is full, and otherwise appends the message to
the tail of the queue via `put_nowait`. -/
def receiveMessage (a : AgentState) (m : Message) : Except PyError AgentState :=
  if m.receiverId ≠ a.agentId then
    .error PyError.communicationError
  else if queueFull a then
    .error PyError.queueFullError
  else
    .ok ⟨a.agentId, a.maxQueueSize, a.messageQueue ++ [m]⟩

/-- Iterated `receive_message`: deliver a list of messages in order, stopping
at the first raised exception.  This packages the "C successive receive
calls" experiments of `test_error_handling`. -/
def receiveAll (a : AgentState) : List Message → Except PyError AgentState
  | [] => .ok a
  | m :: ms =>
    match receiveMessage a m with
    | .error e => .error e
    | .ok a' => receiveAll a' ms

/-- Whitespace characters removed by Python's `str.strip()` (the ASCII ones:
space, tab, newline, carriage return, vertical tab, form feed). -/
def isPyWs (c : Char) : Bool :=
  c == ' ' || c == '\t' || c == '\n' || c == '\r' || c == '\x0b' || c == '\x0c'

/-- Embedding of Python's `str.strip()` with no argument: drop leading and
trailing whitespace. -/
def pyStrip (s : String) : String :=
  ⟨((s.data.dropWhile isPyWs).reverse.dropWhile isPyWs).reverse⟩

/-- Embedding of Python's `str.split('\n')` (on the character list):
split at every newline, keeping empty pieces, as Python does. -/
def splitNl : List Char → List Char → List String
  | acc, [] => [⟨acc.reverse⟩]
  | acc, c :: cs =>
    if c = '\n' then ⟨acc.reverse⟩ :: splitNl [] cs else splitNl (c :: acc) cs

/-- JSON values as produced by `json.loads` on the line-delimited records of
the generation backend.  The embedded grammar covers the shapes those
records take: a flat object whose values are strings, integers, booleans or
null, or one such scalar at top level.  (Nested containers and string escape
sequences do not occur in these records and are outside the embedded
grammar.) -/
inductive Json where
  | str : String → Json
  | num : Int → Json
  | bool : Bool → Json
  | null : Json
  | obj : List (String × Json) → Json

/-- JSON insignificant whitespace, skipped between tokens. -/
def jskipWs (cs : List Char) : List Char :=
  cs.dropWhile fun c => c == ' ' || c == '\t' || c == '\n' || c == '\r'

/-- Parse the body of a JSON string literal after the opening quote, up to
the closing quote.  Escape sequences are outside the embedded grammar. -/
def parseStrBody : List Char → Option (List Char × List Char)
  | [] => none
  | c :: cs =>
    if c = '"' then some ([], cs)
    else if c = '\\' then none
    else
      match parseStrBody cs with
      | some (s, rest) => some (c :: s, rest)
      | none => none

/-- Longest prefix of decimal digits. -/
def parseDigits : List Char → List Char × List Char
  | [] => ([], [])
  | c :: cs =>
    if c.isDigit then
      let (d, r) := parseDigits cs
      (c :: d, r)
    else ([], c :: cs)

/-- Numeric value of a digit list. -/
def digitsToNat : List Char → Nat
  | [] => 0
  | c :: cs => digitsToNat cs + c.toNat.sub 48 * 10 ^ cs.length

/-- Parse one scalar JSON value: string, `true`, `false`, `null`, or an
integer (optionally negated). -/
def parseScalarVal : List Char → Option (Json × List Char)
  | '"' :: cs =>
    match parseStrBody cs with
    | some (s, rest) => some (.str ⟨s⟩, rest)
    | none => none
  | 't' :: 'r' :: 'u' :: 'e' :: rest => some (.bool true, rest)
  | 'f' :: 'a' :: 'l' :: 's' :: 'e' :: rest => some (.bool false, rest)
  | 'n' :: 'u' :: 'l' :: 'l' :: rest => some (.null, rest)
  | '-' :: cs =>
    match parseDigits cs with
    | ([], _) => none
    | (d, rest) => some (.num (-(digitsToNat d : Int)), rest)
  | cs =>
    match parseDigits cs with
    | ([], _) => none
    | (d, rest) => some (.num (digitsToNat d : Int), rest)

/-- Parse the members of a JSON object after the opening brace, including the
closing brace.  The fuel argument bounds the number of members; callers pass
the length of the remaining input, which suffices because every member
consumes at least one character. -/
def parseMembers : Nat → List Char → Option (List (String × Json) × List Char)
  | 0, _ => none
  | fuel + 1, cs =>
    match jskipWs cs with
    | '"' :: cs1 =>
      match parseStrBody cs1 with
      | none => none
      | some (k, cs2) =>
        match jskipWs cs2 with
        | ':' :: cs3 =>
          match parseScalarVal (jskipWs cs3) with
          | none => none
          | some (v, cs4) =>
            match jskipWs cs4 with
            | ',' :: cs5 =>
              match parseMembers fuel cs5 with
              | some (kvs, cs6) => some ((⟨k⟩, v) :: kvs, cs6)
              | none => none
            | '\x7d' :: cs5 => some ([(⟨k⟩, v)], cs5)
            | _ => none
        | _ => none
    | _ => none

/-- Embedding of `json.loads(line)` on the backend's line-delimited records:
parse one JSON value and require the rest of the input to be whitespace;
`none` embeds a raised `json.JSONDecodeError`. -/
def jsonParse (s : String) : Option Json :=
  let cs := jskipWs s.data
  match cs with
  | '\x7b' :: rest =>
    match jskipWs rest with
    | '\x7d' :: rest2 => if jskipWs rest2 = [] then some (.obj []) else none
    | _ =>
      match parseMembers (rest.length + 1) rest with
      | some (kvs, rem) => if jskipWs rem = [] then some (.obj kvs) else none
      | none => none
  | _ =>
    match parseScalarVal cs with
    | some (v, rem) => if jskipWs rem = [] then some v else none
    | none => none

/-- Python dict lookup on the key/value list built by `json.loads`: a
duplicated key keeps its last occurrence, as in a Python dict literal. -/
def dictGet (k : String) : List (String × Json) → Option Json
  | [] => none
  | kv :: rest =>
    match dictGet k rest with
    | some v => some v
    | none => if kv.1 == k then some kv.2 else none

/-- Substring test used by Python's `in` operator on strings. -/
def hasPrefixChars : List Char → List Char → Bool
  | [], _ => true
  | _ :: _, [] => false
  | a :: as, b :: bs => a == b && hasPrefixChars as bs

/-- Whether `needle` occurs contiguously inside `hay`. -/
def containsSub (needle : List Char) : List Char → Bool
  | [] => hasPrefixChars needle []
  | hay@(_ :: rest) => hasPrefixChars needle hay || containsSub needle rest

/-- Embedding of Python's `'response' in data` on a value returned by
`json.loads`: key membership on a dict, substring test on a string, and a
raised `TypeError` on the remaining non-container values. -/
def responseIn : Json → Except PyError Bool
  | .obj kvs => .ok (kvs.any fun kv => kv.1 == "response")
  | .str s => .ok (containsSub "response".data s.data)
  | _ => .error PyError.typeError

/-- Embedding of `acc += data['response']` on a value for which
`'response' in data` was true: on a dict it yields the value, but appending a
non-string value to a string raises `TypeError`, and subscripting a string by
a string raises `TypeError`. -/
def responseGet : Json → Except PyError String
  | .obj kvs =>
    match dictGet "response" kvs with
    | some (.str s) => .ok s
    | _ => .error PyError.typeError
  | _ => .error PyError.typeError

/-- Embedding of the streamed-response loop shared verbatim by
`QuestionAgent.generate_question` and `AnswerAgent.generate_answer`:

    for line in response.text.strip().split('\n'):
        if line:
            data = json.loads(line)
            if 'response' in data:
                acc += data['response']

The accumulator is threaded explicitly; the first raised exception aborts
the loop. -/
def processLines : String → List String → Except PyError String
  | acc, [] => .ok acc
  | acc, line :: rest =>
    if line = "" then processLines acc rest
    else
      match jsonParse line with
      | none => .error PyError.jsonDecodeError
      | some data =>
        match responseIn data with
        | .error e => .error e
        | .ok b =>
          if b then
            match responseGet data with
            | .error e => .error e
            | .ok s => processLines (acc ++ s) rest
          else processLines acc rest

/-- Embedding of the whole response-assembly performed on `response.text` by
`generate_question` / `generate_answer`: strip the body, split it into
lines, run the accumulation loop, and strip the accumulated text before
returning it. -/
def assembleResponse (t : String) : Except PyError String :=
  match processLines "" (splitNl [] (pyStrip t).data) with
  | .ok q => .ok (pyStrip q)
  | .error e => .error e

/-- Embedding of `QuestionAgent.generate_question(topic)`: post the prompt to
the backend and assemble the line-delimited response.  The HTTP exchange is
abstracted into `backend`, the function from the prompt to the raw response
body text. -/
def generateQuestion (backend : String → String) (topic : String) : Except PyError String :=
  assembleResponse (backend ("Generate a thought-provoking question about: " ++ topic))

/-- Embedding of `AnswerAgent.generate_answer(question)`, with the HTTP
exchange abstracted into `backend` as in `generateQuestion`. -/
def generateAnswer (backend : String → String) (question : String) : Except PyError String :=
  assembleResponse (backend ("Please answer this question: " ++ question))

/-- Handler type for `_handle_message`: the agent state at the time of the
call (the dispatched message already dequeued) and the message, yielding the
possibly-updated state together with the handler's return value (`none`
embeds Python's `None`). -/
def Handler : Type :=
  AgentState → Message → Except PyError (AgentState × Option Message)

/-- Embedding of `BaseAgent._handle_message`: raises `NotImplementedError`. -/
def baseHandleMessage : Handler := fun _ _ => .error PyError.notImplementedError

/-- Embedding of `QuestionAgent._handle_message`: prints the received answer
and returns `None`, touching no agent state. -/
def questionHandleMessage : Handler := fun a _ => .ok (a, none)

/-- Embedding of `AnswerAgent._handle_message`: when the message type is
`"question"`, generate an answer for its content, build the reply via
`send_message(to_agent_id=message.sender_id, content=answer,
message_type="answer")` and return it; on any other message type fall
through and return `None`. -/
def answerHandleMessage (backend : String → String) (now : String) : Handler := fun a m =>
  if m.messageType = "question" then
    match generateAnswer backend m.content with
    | .error e => .error e
    | .ok ans =>
      match sendMessage now a m.senderId ans "answer" with
      | .error e => .error e
      | .ok reply => .ok (a, some reply)
  else
    .ok (a, none)

/-- Result of one `process_messages` call.  `state` is the agent state when
the call finishes (normally or by a raised exception); `trace` is
instrumentation recording, in order, each message for which `_handle_message`
was invoked together with the value that invocation returned (`none` both
for a Python `None` return and for an invocation that raised); `ret` is the
value `process_messages` itself returns to its caller — the Python function
body has no `return` statement and discards the awaited handler values, so a
normal completion returns `None`; `err` is the exception propagating out of
the call, if any. -/
structure ProcResult where
  state : AgentState
  trace : List (Message × Option Message)
  ret : Option Message
  err : Option PyError
deriving DecidableEq, Repr

/-- Embedding of `BaseAgent.process_messages`:

    while not self.message_queue.empty():
        message = self.message_queue.get()
        await self._handle_message(message)

Each iteration dequeues the head, then awaits the handler on the dequeued
state; a raised exception stops the loop and propagates.  The `while` loop
has no termination guarantee of its own, so the embedding is fuel-indexed;
the theorems below supply enough fuel for the drain to complete and show the
result is then fuel-independent. -/
def processMessages (h : Handler) : Nat → AgentState → ProcResult
  | 0, a => ⟨a, [], none, none⟩
  | fuel + 1, a =>
    match a.messageQueue with
    | [] => ⟨a, [], none, none⟩
    | m :: rest =>
      let a' : AgentState := ⟨a.agentId, a.maxQueueSize, rest⟩
      match h a' m with
      | .error e => ⟨a', [(m, none)], none, some e⟩
      | .ok (st, reply) =>
        let r := processMessages h fuel st
        ⟨r.state, (m, reply) :: r.trace, r.ret, r.err⟩

/-- Deterministic backend used for the concrete question/answer scenario: it
responds to every prompt with a single streamed record carrying the fragment
`"42"`. -/
def qaBackend : String → String := fun _ => "\x7b\"response\": \"42\"\x7d"

/-- The question message of the concrete question/answer scenario. -/
def qaQuestionMsg : Message := ⟨"questioner", "answerer", "Q1", "question", "T1"⟩

/-- The `AnswerAgent` of the concrete scenario, its mailbox holding exactly
the one question message. -/
def qaAgent : AgentState := ⟨"answerer", 100, [qaQuestionMsg]⟩

/-- The text fragment a line contributes to the assembled response: the
string under its `response` key, when the line parses to an object carrying
one. -/
def lineFragment (line : String) : Option String :=
  match jsonParse line with
  | some (Json.obj kvs) =>
    match dictGet "response" kvs with
    | some (Json.str s) => some s
    | _ => none
  | _ => none

/-- A line the assembly loop consumes without raising: empty (skipped), or a
parsed object whose `response` key, when present, holds a string. -/
def lineOk (line : String) : Bool :=
  line == "" ||
    match jsonParse line with
    | some (Json.obj kvs) =>
      match dictGet "response" kvs with
      | some (Json.str _) => true
      | some _ => false
      | none => true
    | _ => false

/-- In-order concatenation of a list of strings. -/
def concatAll : List String → String
  | [] => ""
  | s :: rest => s ++ concatAll rest

/-- The three-line backend response of the concrete assembly scenario: two
records carrying the fragments `"Hel"` and `"lo"` and one record without a
`response` field. -/
def helloResponse : String :=
  "\x7b\"response\": \"Hel\"\x7d\n\x7b\"done\": false\x7d\n\x7b\"response\": \"lo\"\x7d"

/-- A run of correctly-addressed deliveries that fits in the remaining
capacity succeeds and appends the messages in order. -/
theorem receiveAll_ok (msgs : List Message) :
    ∀ a : AgentState, (∀ x ∈ msgs, x.receiverId = a.agentId) →
      ((a.messageQueue.length : Int) + msgs.length ≤ a.maxQueueSize) →
      receiveAll a msgs = .ok ⟨a.agentId, a.maxQueueSize, a.messageQueue ++ msgs⟩ := by
  induction msgs with
  | nil =>
    intro a _ _
    cases a with
    | mk i c q => simp [receiveAll]
  | cons m ms ih =>
    intro a haddr hlen
    have hm : m.receiverId = a.agentId := haddr m (by simp)
    have hnotfull : ¬ queueFull a := by
      unfold queueFull
      simp only [List.length_cons] at hlen
      push_cast at hlen
      omega
    have hstep : receiveMessage a m =
        .ok ⟨a.agentId, a.maxQueueSize, a.messageQueue ++ [m]⟩ := by
      unfold receiveMessage
      rw [if_neg (by simp [hm]), if_neg hnotfull]
    have htail := ih ⟨a.agentId, a.maxQueueSize, a.messageQueue ++ [m]⟩
      (by intro x hx; exact haddr x (by simp [hx]))
      (by
        simp only [List.length_append, List.length_cons, List.length_nil] at hlen ⊢
        push_cast at hlen ⊢
        omega)
    simp only [receiveAll, hstep, htail, List.append_assoc, List.singleton_append]

/-- C1: for every agent whose mailbox has capacity `C > 0`, after `C`
successful receive operations (from the empty mailbox every `BaseAgent`
starts with) the mailbox holds exactly `C` messages, and a further receive
of a correctly-addressed message raises `QueueFullError` without producing
any new state; the enqueue path is the non-blocking `put_nowait` guarded by
`full()`. -/
theorem mailbox_overflow_at_capacity (aid : String) (cap : Int) (msgs : List Message)
    (m : Message) (hcap : 0 < cap) (hlen : (msgs.length : Int) = cap)
    (haddr : ∀ x ∈ msgs, x.receiverId = aid) (hm : m.receiverId = aid) :
    ∃ a' : AgentState, receiveAll ⟨aid, cap, []⟩ msgs = .ok a' ∧
      (a'.messageQueue.length : Int) = cap ∧
      receiveMessage a' m = .error PyError.queueFullError := by
  refine ⟨⟨aid, cap, msgs⟩, ?_, by simpa using hlen, ?_⟩
  · have := receiveAll_ok msgs ⟨aid, cap, []⟩ (by simpa using haddr) (by simpa using le_of_eq hlen)
    simpa using this
  · unfold receiveMessage
    rw [if_neg (by simp [hm]), if_pos (by constructor <;> simp <;> omega)]

/-- C1 witness: capacity 2, two deliveries, then overflow. -/
theorem mailbox_overflow_at_capacity_witness :
    ∃ a' : AgentState,
      receiveAll ⟨"test_agent", 2, []⟩
        [⟨"sender", "test_agent", "msg1", "general", "T"⟩,
         ⟨"sender", "test_agent", "msg2", "general", "T"⟩] = .ok a' ∧
      (a'.messageQueue.length : Int) = 2 ∧
      receiveMessage a' ⟨"sender", "test_agent", "msg3", "general", "T"⟩ =
        .error PyError.queueFullError :=
  mailbox_overflow_at_capacity "test_agent" 2
    [⟨"sender", "test_agent", "msg1", "general", "T"⟩,
     ⟨"sender", "test_agent", "msg2", "general", "T"⟩]
    ⟨"sender", "test_agent", "msg3", "general", "T"⟩
    (by decide) (by decide) (by decide) (by decide)

/-- C2: `receive_message` admits a message only when its `receiver_id` equals
the agent's id — a mismatch raises `CommunicationError` and produces no new
state — and a successful receive appends exactly that message; consequently
the "every mailbox entry is addressed to its owner" invariant is preserved
by every successful receive, `receive_message` being the only operation that
adds to the queue. -/
theorem receive_admission_invariant :
    (∀ (a : AgentState) (m : Message), m.receiverId ≠ a.agentId →
        receiveMessage a m = .error PyError.communicationError) ∧
    (∀ (a : AgentState) (m : Message) (a' : AgentState), receiveMessage a m = .ok a' →
        m.receiverId = a.agentId ∧ a'.agentId = a.agentId ∧
        a'.messageQueue = a.messageQueue ++ [m]) ∧
    (∀ (a : AgentState) (m : Message) (a' : AgentState),
        (∀ x ∈ a.messageQueue, x.receiverId = a.agentId) →
        receiveMessage a m = .ok a' →
        ∀ x ∈ a'.messageQueue, x.receiverId = a'.agentId) := by
  have hok : ∀ (a : AgentState) (m : Message) (a' : AgentState), receiveMessage a m = .ok a' →
      m.receiverId = a.agentId ∧ a'.agentId = a.agentId ∧
      a'.messageQueue = a.messageQueue ++ [m] := by
    intro a m a' h
    unfold receiveMessage at h
    by_cases hr : m.receiverId ≠ a.agentId
    · rw [if_pos hr] at h; exact absurd h (by simp)
    · rw [if_neg hr] at h
      by_cases hf : queueFull a
      · rw [if_pos hf] at h; exact absurd h (by simp)
      · rw [if_neg hf] at h
        refine ⟨by simpa using hr, ?_, ?_⟩ <;> cases h <;> rfl
  refine ⟨?_, hok, ?_⟩
  · intro a m hr
    unfold receiveMessage
    rw [if_pos hr]
  · intro a m a' hinv h x hx
    obtain ⟨hm, hid, hq⟩ := hok a m a' h
    rw [hq] at hx
    rw [hid]
    rcases List.mem_append.mp hx with hx | hx
    · exact hinv x hx
    · simp only [List.mem_singleton] at hx
      rw [hx]; exact hm

/-- C2 witness: a mis-addressed message is rejected, and a successful receive
into an already-valid mailbox keeps every entry addressed to its owner. -/
theorem receive_admission_invariant_witness :
    receiveMessage ⟨"agent2", 100, []⟩ ⟨"agent1", "other", "Hi", "general", "T"⟩ =
      .error PyError.communicationError ∧
    (∀ x ∈ (⟨"agent2", 100,
        [⟨"agent1", "agent2", "Hi", "general", "T"⟩]⟩ : AgentState).messageQueue,
      x.receiverId = "agent2") :=
  ⟨receive_admission_invariant.1 ⟨"agent2", 100, []⟩
      ⟨"agent1", "other", "Hi", "general", "T"⟩ (by decide),
   receive_admission_invariant.2.2 ⟨"agent2", 100, []⟩
      ⟨"agent1", "agent2", "Hi", "general", "T"⟩
      ⟨"agent2", 100, [⟨"agent1", "agent2", "Hi", "general", "T"⟩]⟩
      (by intro x hx; cases hx) rfl⟩

/-- C5 counterexample: `send_message` with an empty receiver identifier
succeeds — pydantic validates only that the fields are strings, so the
message is constructed with `receiver_id = ""` and no `CommunicationError`
is raised. -/
theorem send_empty_receiver_cex :
    sendMessage "T0" ⟨"agent1", 100, []⟩ "" "Hello" "general" =
      .ok ⟨"agent1", "", "Hello", "general", "T0"⟩ ∧
    (⟨"agent1", "", "Hello", "general", "T0"⟩ : Message).receiverId = "" ∧
    sendMessage "T0" ⟨"agent1", 100, []⟩ "" "Hello" "general" ≠
      .error PyError.communicationError :=
  ⟨rfl, rfl, by intro h; exact Except.noConfusion h⟩

/-- C5 (amended): `Message` construction performs no non-emptiness
validation on the identifiers, and `send_message` raises `CommunicationError`
only when construction raises, which for string arguments never happens; in
particular a send with an empty receiver identifier succeeds and returns a
message whose `receiver_id` is empty. -/
theorem send_no_identifier_validation (now : String) (a : AgentState)
    (toAgentId content messageType : String) :
    sendMessage now a toAgentId content messageType =
      .ok ⟨a.agentId, toAgentId, content, messageType, now⟩ ∧
    (toAgentId = "" →
      sendMessage now a toAgentId content messageType =
        .ok ⟨a.agentId, "", content, messageType, now⟩) := by
  refine ⟨rfl, ?_⟩
  intro h
  subst h
  rfl

/-- C5 (amended) witness: the empty-receiver send from `agent1` evaluated
concretely. -/
theorem send_no_identifier_validation_witness :
    sendMessage "T0" ⟨"agent1", 100, []⟩ "" "Hi" "general" =
      .ok ⟨"agent1", "", "Hi", "general", "T0"⟩ :=
  (send_no_identifier_validation "T0" ⟨"agent1", 100, []⟩ "" "Hi" "general").2 rfl

/-- C8: a send from `agent1` with receiver `"agent2"`, content `"Hello"` and
type `"general"` succeeds and yields exactly that message, stamped with the
construction-time clock reading, which `datetime.now().isoformat()` makes
non-empty; leaving the `message_type` argument unspecified picks up the
Python default `"general"`. -/
theorem send_hello_general (now : String) (cap : Int) (q : List Message)
    (hnow : now ≠ "") :
    sendMessage now ⟨"agent1", cap, q⟩ "agent2" "Hello" "general" =
      .ok ⟨"agent1", "agent2", "Hello", "general", now⟩ ∧
    sendMessageDefault now ⟨"agent1", cap, q⟩ "agent2" "Hello" =
      .ok ⟨"agent1", "agent2", "Hello", "general", now⟩ ∧
    (⟨"agent1", "agent2", "Hello", "general", now⟩ : Message).messageType = "general" ∧
    (⟨"agent1", "agent2", "Hello", "general", now⟩ : Message).timestamp ≠ "" :=
  ⟨rfl, rfl, rfl, hnow⟩

/-- C8 witness: the send evaluated at a concrete clock reading. -/
theorem send_hello_general_witness :
    sendMessage "2026-10-12T00:00:00" ⟨"agent1", 100, []⟩ "agent2" "Hello" "general" =
      .ok ⟨"agent1", "agent2", "Hello", "general", "2026-10-12T00:00:00"⟩ ∧
    sendMessageDefault "2026-10-12T00:00:00" ⟨"agent1", 100, []⟩ "agent2" "Hello" =
      .ok ⟨"agent1", "agent2", "Hello", "general", "2026-10-12T00:00:00"⟩ ∧
    (⟨"agent1", "agent2", "Hello", "general", "2026-10-12T00:00:00"⟩ : Message).messageType =
      "general" ∧
    (⟨"agent1", "agent2", "Hello", "general", "2026-10-12T00:00:00"⟩ : Message).timestamp ≠ "" :=
  send_hello_general "2026-10-12T00:00:00" 100 [] (by decide)

/-- Specification of a successful `receive_message`: it happens only for a
correctly-addressed message and appends exactly that message to the tail,
touching nothing else. -/
theorem receiveMessage_ok_spec (a : AgentState) (m : Message) (a' : AgentState)
    (h : receiveMessage a m = .ok a') :
    m.receiverId = a.agentId ∧ a'.agentId = a.agentId ∧
    a'.maxQueueSize = a.maxQueueSize ∧ a'.messageQueue = a.messageQueue ++ [m] := by
  unfold receiveMessage at h
  by_cases hr : m.receiverId ≠ a.agentId
  · rw [if_pos hr] at h; exact absurd h (by simp)
  · rw [if_neg hr] at h
    by_cases hf : queueFull a
    · rw [if_pos hf] at h; exact absurd h (by simp)
    · rw [if_neg hf] at h
      refine ⟨by simpa using hr, ?_, ?_, ?_⟩ <;> cases h <;> rfl

/-- Draining lemma for `process_messages`: with a handler that always
completes normally and never touches the owner's queue, enough fuel drains
the queue completely, the handlers are invoked on exactly the queued
messages in queue order, no exception propagates, and the call returns
`None`. -/
theorem processMessages_drain (h : Handler)
    (hpres : ∀ (a : AgentState) (m : Message) (st : AgentState) (r : Option Message),
      h a m = .ok (st, r) → st.messageQueue = a.messageQueue)
    (hok : ∀ (a : AgentState) (m : Message),
      ∃ (st : AgentState) (r : Option Message), h a m = .ok (st, r)) :
    ∀ (q : List Message) (a : AgentState) (fuel : Nat), a.messageQueue = q →
      q.length ≤ fuel →
      (processMessages h fuel a).state.messageQueue = [] ∧
      (processMessages h fuel a).trace.map Prod.fst = q ∧
      (processMessages h fuel a).err = none ∧
      (processMessages h fuel a).ret = none := by
  intro q
  induction q with
  | nil =>
    intro a fuel hq _
    cases fuel with
    | zero => simp [processMessages, hq]
    | succ f => simp [processMessages, hq]
  | cons m rest ih =>
    intro a fuel hq hfuel
    cases fuel with
    | zero => simp at hfuel
    | succ f =>
      obtain ⟨st, r, hr⟩ := hok ⟨a.agentId, a.maxQueueSize, rest⟩ m
      have hst : st.messageQueue = rest := by
        simpa using hpres _ _ _ _ hr
      have htail := ih st f hst (by simp at hfuel; omega)
      simp only [processMessages, hq, hr]
      simpa using htail

/-- C3: messages are dispatched in enqueue order.  If `m1` is successfully
enqueued (via `receive_message`) before `m2`, then a `process_messages`
drain with a handler that completes normally and leaves the owner's mailbox
alone invokes the handlers on the whole queue in order — with `m1` strictly
before `m2` — one at a time, each awaited to completion before the next
dequeue. -/
theorem fifo_dispatch_order (h : Handler)
    (hpres : ∀ (a : AgentState) (m : Message) (st : AgentState) (r : Option Message),
      h a m = .ok (st, r) → st.messageQueue = a.messageQueue)
    (hok : ∀ (a : AgentState) (m : Message),
      ∃ (st : AgentState) (r : Option Message), h a m = .ok (st, r))
    (a0 a1 a2 : AgentState) (m1 m2 : Message) (fuel : Nat)
    (h1 : receiveMessage a0 m1 = .ok a1) (h2 : receiveMessage a1 m2 = .ok a2)
    (hfuel : a2.messageQueue.length ≤ fuel) :
    (processMessages h fuel a2).trace.map Prod.fst = a0.messageQueue ++ [m1, m2] := by
  have e1 := (receiveMessage_ok_spec a0 m1 a1 h1).2.2.2
  have e2 := (receiveMessage_ok_spec a1 m2 a2 h2).2.2.2
  have hq : a2.messageQueue = a0.messageQueue ++ [m1, m2] := by
    rw [e2, e1, List.append_assoc]
    rfl
  exact (processMessages_drain h hpres hok a2.messageQueue a2 fuel rfl hfuel).2.1.trans hq

/-- C3 witness: two messages received into an empty mailbox are dispatched in
arrival order by a `QuestionAgent` drain. -/
theorem fifo_dispatch_order_witness :
    (processMessages questionHandleMessage 2
      ⟨"questioner", 5,
        [⟨"answerer", "questioner", "A1", "answer", "T1"⟩,
         ⟨"answerer", "questioner", "A2", "answer", "T2"⟩]⟩).trace.map Prod.fst =
      [] ++ [⟨"answerer", "questioner", "A1", "answer", "T1"⟩,
             ⟨"answerer", "questioner", "A2", "answer", "T2"⟩] :=
  fifo_dispatch_order questionHandleMessage
    (by intro a m st r hr; cases hr; rfl)
    (fun a m => ⟨a, none, rfl⟩)
    ⟨"questioner", 5, []⟩
    ⟨"questioner", 5, [⟨"answerer", "questioner", "A1", "answer", "T1"⟩]⟩
    ⟨"questioner", 5, [⟨"answerer", "questioner", "A1", "answer", "T1"⟩,
                       ⟨"answerer", "questioner", "A2", "answer", "T2"⟩]⟩
    ⟨"answerer", "questioner", "A1", "answer", "T1"⟩
    ⟨"answerer", "questioner", "A2", "answer", "T2"⟩
    2 rfl rfl (by decide)

/-- C9: `process_messages` is a terminating drain-once loop.  On an empty
mailbox it returns immediately, dispatching nothing and leaving the state
untouched, for any fuel; and when the handler completes normally without
enqueuing into the owner's mailbox, fuel equal to the queue length already
completes the drain — the handlers run on exactly the queued messages, the
queue ends empty, and no exception escapes. -/
theorem drain_once_terminates (h : Handler)
    (hpres : ∀ (a : AgentState) (m : Message) (st : AgentState) (r : Option Message),
      h a m = .ok (st, r) → st.messageQueue = a.messageQueue)
    (hok : ∀ (a : AgentState) (m : Message),
      ∃ (st : AgentState) (r : Option Message), h a m = .ok (st, r))
    (a : AgentState) :
    (∀ fuel : Nat, a.messageQueue = [] →
      processMessages h fuel a = ⟨a, [], none, none⟩) ∧
    (∀ fuel : Nat, a.messageQueue.length ≤ fuel →
      (processMessages h fuel a).state.messageQueue = [] ∧
      (processMessages h fuel a).trace.map Prod.fst = a.messageQueue ∧
      (processMessages h fuel a).err = none ∧
      (processMessages h fuel a).ret = none) := by
  constructor
  · intro fuel hq
    cases fuel with
    | zero => rfl
    | succ f => simp [processMessages, hq]
  · intro fuel hfuel
    exact processMessages_drain h hpres hok a.messageQueue a fuel rfl hfuel

/-- C9 witness: the empty-mailbox drain returns immediately and a one-message
drain with the `QuestionAgent` handler dispatches exactly that message. -/
theorem drain_once_terminates_witness :
    processMessages questionHandleMessage 7 ⟨"idle", 100, []⟩ =
      ⟨⟨"idle", 100, []⟩, [], none, none⟩ ∧
    (processMessages questionHandleMessage 1
      ⟨"questioner", 100, [⟨"answerer", "questioner", "A1", "answer", "T1"⟩]⟩).trace.map
        Prod.fst = [⟨"answerer", "questioner", "A1", "answer", "T1"⟩] :=
  ⟨(drain_once_terminates questionHandleMessage
      (by intro a m st r hr; cases hr; rfl)
      (fun a m => ⟨a, none, rfl⟩)
      ⟨"idle", 100, []⟩).1 7 rfl,
   ((drain_once_terminates questionHandleMessage
      (by intro a m st r hr; cases hr; rfl)
      (fun a m => ⟨a, none, rfl⟩)
      ⟨"questioner", 100, [⟨"answerer", "questioner", "A1", "answer", "T1"⟩]⟩).2
      1 (by decide)).2.1⟩

/-- C10: when the handler raises on the message at the head of the queue, the
message has already been dequeued and is not re-enqueued, every message
behind it is still in the mailbox, the exception propagates out of
`process_messages`, and no further message is dispatched in that call. -/
theorem handler_exception_stops_drain (h : Handler) (a : AgentState) (m : Message)
    (rest : List Message) (e : PyError) (fuel : Nat)
    (hq : a.messageQueue = m :: rest)
    (hh : h ⟨a.agentId, a.maxQueueSize, rest⟩ m = .error e) :
    processMessages h (fuel + 1) a =
      ⟨⟨a.agentId, a.maxQueueSize, rest⟩, [(m, none)], none, some e⟩ := by
  simp [processMessages, hq, hh]

/-- C10 witness: a bare `BaseAgent` (whose `_handle_message` raises
`NotImplementedError`) on a two-message queue: the first message is gone, the
second remains, and the exception escapes. -/
theorem handler_exception_stops_drain_witness :
    processMessages baseHandleMessage 1
      ⟨"base", 100,
        [⟨"s", "base", "m1", "general", "T"⟩, ⟨"s", "base", "m2", "general", "T"⟩]⟩ =
      ⟨⟨"base", 100, [⟨"s", "base", "m2", "general", "T"⟩]⟩,
       [(⟨"s", "base", "m1", "general", "T"⟩, none)], none,
       some PyError.notImplementedError⟩ :=
  handler_exception_stops_drain baseHandleMessage
    ⟨"base", 100,
      [⟨"s", "base", "m1", "general", "T"⟩, ⟨"s", "base", "m2", "general", "T"⟩]⟩
    ⟨"s", "base", "m1", "general", "T"⟩
    [⟨"s", "base", "m2", "general", "T"⟩]
    PyError.notImplementedError 0 rfl rfl

/-- C4 counterexample: in the concrete round-trip scenario the
`AnswerAgent`'s handler does construct the reply (see the amended theorem),
but `process_messages` discards the awaited handler value and returns `None`,
so no reply message whatsoever — in particular none with type `"answer"`
addressed to the questioner — is returned to the caller of
`process_messages` for delivery. -/
theorem answer_reply_not_returned_cex :
    ¬ ∃ r : Message,
      (processMessages (answerHandleMessage qaBackend "T2") 1 qaAgent).ret = some r ∧
      r.messageType = "answer" ∧ r.receiverId = "questioner" := by
  intro hex
  obtain ⟨r, hr, -, -⟩ := hex
  have hn : (processMessages (answerHandleMessage qaBackend "T2") 1 qaAgent).ret = none := rfl
  rw [hn] at hr
  cases hr

/-- C4 (amended): when an `AnswerAgent`'s mailbox holds exactly one message
of type `"question"` sent by agent `Q` and the generation call succeeds,
`process_messages` dispatches that one message, and the handler constructs
and returns one reply message with `message_type = "answer"`, `receiver_id`
equal to `Q`'s identifier and content equal to the generated answer — but
the reply only reaches `process_messages`, which discards it and returns
`None` to its own caller; the reply is not handed back for delivery. -/
theorem answer_question_reply (backend : String → String) (now qid aid qc ts ans : String)
    (cap : Int) (hgen : generateAnswer backend qc = .ok ans) :
    processMessages (answerHandleMessage backend now) 1
        ⟨aid, cap, [⟨qid, aid, qc, "question", ts⟩]⟩ =
      ⟨⟨aid, cap, []⟩,
       [(⟨qid, aid, qc, "question", ts⟩, some ⟨aid, qid, ans, "answer", now⟩)],
       none, none⟩ := by
  simp [processMessages, answerHandleMessage, hgen, sendMessage]

/-- C4 (amended) witness: the concrete scenario, with the deterministic
backend generating the answer `"42"`. -/
theorem answer_question_reply_witness :
    processMessages (answerHandleMessage qaBackend "T2") 1
        ⟨"questioner2", 100, [⟨"q2", "questioner2", "Q1", "question", "T1"⟩]⟩ =
      ⟨⟨"questioner2", 100, []⟩,
       [(⟨"q2", "questioner2", "Q1", "question", "T1"⟩,
         some ⟨"questioner2", "q2", "42", "answer", "T2"⟩)],
       none, none⟩ :=
  answer_question_reply qaBackend "T2" "q2" "questioner2" "Q1" "T1" "42" 100 rfl

/-- Key membership as tested by `in` agrees with `dictGet` finding a
value. -/
theorem anyKey_eq_isSome (k : String) (kvs : List (String × Json)) :
    (kvs.any fun kv => kv.1 == k) = (dictGet k kvs).isSome := by
  induction kvs with
  | nil => rfl
  | cons kv rest ih =>
    simp only [List.any_cons, dictGet]
    cases hd : dictGet k rest with
    | some v =>
      rw [hd] at ih
      simp [ih]
    | none =>
      rw [hd] at ih
      cases hk : kv.1 == k <;> simp [hk, ih]

/-- One step of the assembly loop on a line it consumes without raising:
append the line's fragment (empty when it has none) and continue. -/
theorem processLines_step (line : String) (rest : List String) (acc : String)
    (hline : lineOk line = true) :
    processLines acc (line :: rest) =
      processLines (acc ++ (lineFragment line).getD "") rest := by
  by_cases hemp : line = ""
  · subst hemp
    rw [show (lineFragment "").getD "" = "" from rfl, String.append_empty]
    simp [processLines]
  · unfold lineOk at hline
    rw [Bool.or_eq_true] at hline
    rcases hline with hline | hline
    · exact absurd (by simpa using hline) hemp
    · cases hj : jsonParse line with
      | none => rw [hj] at hline; simp at hline
      | some data =>
        rw [hj] at hline
        cases data with
        | str s => simp at hline
        | num n => simp at hline
        | bool b => simp at hline
        | null => simp at hline
        | obj kvs =>
          cases hd : dictGet "response" kvs with
          | none =>
            have hin : (kvs.any fun kv => kv.1 == "response") = false := by
              rw [anyKey_eq_isSome, hd]; rfl
            have hfrag : (lineFragment line).getD "" = "" := by
              simp [lineFragment, hj, hd]
            rw [hfrag, String.append_empty]
            simp [processLines, if_neg hemp, hj, responseIn, hin]
          | some v =>
            cases v with
            | str s =>
              have hin : (kvs.any fun kv => kv.1 == "response") = true := by
                rw [anyKey_eq_isSome, hd]; rfl
              have hfrag : (lineFragment line).getD "" = s := by
                simp [lineFragment, hj, hd]
              rw [hfrag]
              simp [processLines, if_neg hemp, hj, responseIn, hin, responseGet, hd]
            | num n => simp [hd] at hline
            | bool b => simp [hd] at hline
            | null => simp [hd] at hline
            | obj kvs2 => simp [hd] at hline

/-- The assembly loop over raising-free lines accumulates exactly the
in-order concatenation of the lines' fragments. -/
theorem processLines_all_ok (lines : List String) :
    ∀ acc : String, (∀ l ∈ lines, lineOk l = true) →
      processLines acc lines = .ok (acc ++ concatAll (lines.filterMap lineFragment)) := by
  induction lines with
  | nil => intro acc _; simp [processLines, concatAll]
  | cons line rest ih =>
    intro acc hok
    rw [processLines_step line rest acc (hok line (by simp))]
    rw [ih _ (fun l hl => hok l (by simp [hl]))]
    cases hf : lineFragment line with
    | none => simp [List.filterMap_cons, hf]
    | some s => simp [List.filterMap_cons, hf, concatAll, String.append_assoc]

/-- The assembly loop raises `jsonDecodeError` at the first unparseable line,
whatever has been accumulated before it. -/
theorem processLines_hits_bad (good : List String) :
    ∀ (acc bad : String) (rest : List String),
      (∀ l ∈ good, lineOk l = true) → bad ≠ "" → jsonParse bad = none →
      processLines acc (good ++ bad :: rest) = .error PyError.jsonDecodeError := by
  induction good with
  | nil =>
    intro acc bad rest _ hbad hparse
    simp [processLines, if_neg hbad, hparse]
  | cons line gtail ih =>
    intro acc bad rest hgood hbad hparse
    rw [List.cons_append, processLines_step line _ acc (hgood line (by simp))]
    exact ih _ bad rest (fun l hl => hgood l (by simp [hl])) hbad hparse

/-- C7: on a backend response every line of which the loop consumes without
raising (empty, or an object whose `response` key — when present — holds a
string), the client returns exactly the in-order concatenation of the
fragments carried under the `response` field, ignoring lines lacking that
field, with leading and trailing whitespace trimmed. -/
theorem assemble_concatenates_fragments (t : String)
    (hok : ∀ l ∈ splitNl [] (pyStrip t).data, lineOk l = true) :
    assembleResponse t =
      .ok (pyStrip (concatAll ((splitNl [] (pyStrip t).data).filterMap lineFragment))) := by
  unfold assembleResponse
  rw [processLines_all_ok _ "" hok]
  rfl

/-- C7 witness: the three-line response with fragments `"Hel"` and `"lo"` and
one line without the field assembles to `"Hello"`. -/
theorem assemble_concatenates_fragments_witness :
    (∀ l ∈ splitNl [] (pyStrip helloResponse).data, lineOk l = true) ∧
    assembleResponse helloResponse = .ok "Hello" :=
  ⟨by decide, (assemble_concatenates_fragments helloResponse (by decide)).trans rfl⟩

/-- C6 counterexample: a backend response consisting of the unparseable line
`"notjson"` makes the generation call fail with `jsonDecodeError` — the
embedded `json.JSONDecodeError`, which is not one of the `AgentError`
subclasses — and not with `ollamaError`, the `GenerationError` kind of the
closed taxonomy. -/
theorem generation_malformed_line_cex :
    generateQuestion (fun _ => "notjson") "python programming" =
      .error PyError.jsonDecodeError ∧
    PyError.isAgentError PyError.jsonDecodeError = false ∧
    generateQuestion (fun _ => "notjson") "python programming" ≠
      .error PyError.ollamaError := by
  refine ⟨rfl, rfl, ?_⟩
  intro h
  rw [show generateQuestion (fun _ => "notjson") "python programming" =
      .error PyError.jsonDecodeError from rfl] at h
  injection h with h'
  cases h'

/-- C6 (amended): a backend response whose lines are consumed without
raising up to some line that is not parseable JSON makes the generation call
raise `json.JSONDecodeError` — a hard failure of that call, not a skipped
line, but an exception of foreign type that escapes unhandled rather than an
`OllamaError` of the code's closed taxonomy (`OllamaError` is defined yet
never raised). -/
theorem generation_malformed_line_error (backend : String → String) (topic : String)
    (good : List String) (bad : String) (rest : List String)
    (hsplit : splitNl []
        (pyStrip (backend ("Generate a thought-provoking question about: " ++ topic))).data =
      good ++ bad :: rest)
    (hgood : ∀ l ∈ good, lineOk l = true) (hbad : bad ≠ "") (hparse : jsonParse bad = none) :
    generateQuestion backend topic = .error PyError.jsonDecodeError := by
  unfold generateQuestion assembleResponse
  rw [hsplit, processLines_hits_bad good "" bad rest hgood hbad hparse]

/-- C6 (amended) witness: a one-line unparseable response evaluated
concretely. -/
theorem generation_malformed_line_error_witness :
    generateQuestion (fun _ => "status: 404") "history" = .error PyError.jsonDecodeError :=
  generation_malformed_line_error (fun _ => "status: 404") "history" [] "status: 404" []
    rfl (by intro l hl; cases hl) (by decide) rfl
